import Mathlib

/-!
Verification of `gdb/testsuite/gdb.threads/watchthreads-reorder.c`.

The C program is embedded shallowly: its pure helpers (`proc_string`,
`proc_ulong` with the `strtol` semantics it relies on) become Lean functions
on lists of characters; the polling loop of `timed_mutex_lock` becomes a
fuel-indexed loop over an abstract monotone clock; `cleanup` becomes a state
transition on the recorded `tracer` variable that also emits the actions it
performs; `main` becomes a function from an environment (command line,
`TracerPid` value, parent pid, published thread ids, outcomes of the
`state_wait` polls) to the sequence of synchronisation events it performs
together with its exit result.
-/

set_option maxHeartbeats 1000000

namespace WatchthreadsReorder

/-- Result of running a fragment of the C program: a normal return carrying a
value, an `exit (EXIT_FAILURE)` after printing the given diagnostic on
stderr, or an `assert` failure (abort). -/
inductive CResult (α : Type) where
  | ok : α → CResult α
  | fatalExit : String → CResult α
  | assertFail : CResult α
  deriving DecidableEq

/-- Buffer size `LINE_MAX` from limits.h (2048 on glibc); `proc_string` reads
with `fgets (buf, sizeof (buf), f)` where `buf` has this size, so each read
returns at most `LINE_MAX - 1` characters. -/
def LINE_MAX : Nat := 2048

/-- Diagnostic tag for the `fopen` failure exit in `proc_string`
(line 146 of the C file). -/
def fopenDiag : String := "fopen failed"

/-- Diagnostic tag for the `fgets` read-error exit in `proc_string`
(line 172 of the C file). -/
def fgetsDiag : String := "fgets failed"

/-- Diagnostic tag for the no-matching-line exit in `proc_string`
(line 175 of the C file). -/
def noLineDiag : String := "No line found"

/-- Diagnostic tag for the range/trailing-character exit in `proc_ulong`
(line 190 of the C file). -/
def ulongDiag : String := "proc_ulong range or trailing characters"

/-- The opened file as `proc_string` sees it: either `fopen` fails, or the
file has the given character content; `readErr` records whether the final
`fgets` (after the content is exhausted) fails with a read error instead of
reporting a clean end of file. -/
inductive FileInput where
  | noOpen : FileInput
  | content : List Char → Bool → FileInput
  deriving DecidableEq

/-- Splits the character stream into the successive buffers that
`fgets (buf, cap + 1, f)` returns: each chunk ends at the first newline or
after `cap` characters, whichever comes first.  `acc` is the partially
filled buffer and `room` the remaining capacity of the current chunk. -/
def splitChunks (cap : Nat) : List Char → List Char → Nat → List (List Char)
  | [], acc, _ => if acc = [] then [] else [acc]
  | c :: rest, acc, room =>
    if c = '\n' then (acc ++ [c]) :: splitChunks cap rest [] cap
    else if room ≤ 1 then (acc ++ [c]) :: splitChunks cap rest [] cap
    else splitChunks cap rest (acc ++ [c]) (room - 1)

/-- The scan loop of `proc_string` (lines 150-169 of the C file) over the
successive `fgets` buffers: assert a newline is present (`strchr` +
`assert`), truncate at the newline (`*s = 0`), compare the prefix
(`strncmp (buf, line, line_len)`), and either return the remainder
(`&buf[line_len]`) or continue; at end of file report a read error or the
absence of a matching line. -/
def procLines (label : List Char) (readErr : Bool) : List (List Char) → CResult (List Char)
  | [] => if readErr then CResult.fatalExit fgetsDiag else CResult.fatalExit noLineDiag
  | buf :: rest =>
    if '\n' ∈ buf then
      let line := buf.takeWhile (fun c => c != '\n')
      if line.take label.length = label then CResult.ok (line.drop label.length)
      else procLines label readErr rest
    else CResult.assertFail

/-- Embedding of `proc_string` (lines 136-177 of the C file): fail on
`fopen` failure, otherwise scan the `fgets` chunks of the content. -/
def proc_string (file : FileInput) (label : List Char) : CResult (List Char) :=
  match file with
  | FileInput.noOpen => CResult.fatalExit fopenDiag
  | FileInput.content chars readErr =>
    procLines label readErr (splitChunks (LINE_MAX - 1) chars [] (LINE_MAX - 1))

/-- LONG_MAX for the 64-bit `long` the program is compiled with. -/
def LONG_MAX : Int := 9223372036854775807

/-- LONG_MIN for the 64-bit `long` the program is compiled with. -/
def LONG_MIN : Int := -9223372036854775808

/-- The `isspace` characters skipped by `strtol` in the C locale. -/
def isSpaceC (c : Char) : Bool :=
  c = ' ' || c = '\t' || c = '\n' || c = '\x0B' || c = '\x0C' || c = '\r'

/-- Value of a string of decimal digits. -/
def digitsToNat (ds : List Char) : Nat :=
  ds.foldl (fun a c => a * 10 + (c.toNat - 48)) 0

/-- Optional sign at the start of the digit field, as `strtol` accepts it. -/
def signSplit (s : List Char) : Bool × List Char :=
  match s with
  | '-' :: r => (true, r)
  | '+' :: r => (false, r)
  | r => (false, r)

/-- Clamping that `strtol` applies on overflow: values above `LONG_MAX`
return `LONG_MAX`, values below `LONG_MIN` return `LONG_MIN`. -/
def clampLong (v : Int) : Int :=
  if LONG_MAX < v then LONG_MAX
  else if v < LONG_MIN then LONG_MIN
  else v

/-- The exact mathematical value denoted by the subject sequence that
`strtol (s, &end, 10)` recognises: optional whitespace, optional sign,
then decimal digits (0 if there are no digits).  Overflow means this value
lies outside the interval from LONG_MIN to LONG_MAX. -/
def strtol10_exact (s : List Char) : Int :=
  let p := signSplit (s.dropWhile isSpaceC)
  let mag : Int := Int.ofNat (digitsToNat (p.2.takeWhile Char.isDigit))
  if p.1 then -mag else mag

/-- Embedding of `strtol (s, &end, 10)`: returns the (clamped) value and the
remainder of the string starting at `end`.  When no digits are found the
value is 0 and `end` points back at the start of the input. -/
def strtol10 (s : List Char) : Int × List Char :=
  let p := signSplit (s.dropWhile isSpaceC)
  if p.2.takeWhile Char.isDigit = [] then (0, s)
  else (clampLong (strtol10_exact s), p.2.dropWhile Char.isDigit)

/-- Embedding of `proc_ulong` (lines 179-195 of the C file): read the field
with `proc_string`, parse it with `strtol` base 10, and exit fatally when
`retval < 0 || retval >= LONG_MAX || (end && *end)`. -/
def proc_ulong (file : FileInput) (label : List Char) : CResult Int :=
  match proc_string file label with
  | CResult.assertFail => CResult.assertFail
  | CResult.fatalExit m => CResult.fatalExit m
  | CResult.ok s =>
    let p := strtol10 s
    if p.1 < 0 ∨ LONG_MAX ≤ p.1 ∨ p.2 ≠ [] then CResult.fatalExit ulongDiag
    else CResult.ok p.1

/-- The per-caller wall-clock budget in seconds (line 35 of the C file):
`gettid () == getpid () ? 10 : 15` — shorter for the main thread. -/
def TIMEOUT (tid pid : Nat) : Nat := if tid = pid then 10 else 15

/-- Diagnostic printed by `timed_mutex_lock` on timeout (line 82). -/
def lockTimeoutMsg : String := "Timed out waiting for internal lock!"

/-- The polling loop of `timed_mutex_lock` (lines 69-80 of the C file).
`trylock i` tells whether the i-th `pthread_mutex_trylock` succeeds and
`clock i` the seconds value `clock_gettime (CLOCK_MONOTONIC)` reports at
the i-th iteration, with `start` the value read before the loop.  The
result is `some (i, true)` when the lock is acquired at iteration `i`,
`some (i, false)` when the loop gives up at iteration `i` (the first whose
time shows at least `timeout` elapsed seconds), and `none` when the fuel
runs out first. -/
def timedLockLoop (timeout start : Nat) (trylock : Nat → Bool) (clock : Nat → Nat) :
    Nat → Nat → Option (Nat × Bool)
  | 0, _ => none
  | fuel + 1, i =>
    if trylock i then some (i, true)
    else if clock i - start < timeout then timedLockLoop timeout start trylock clock fuel (i + 1)
    else some (i, false)

/-- Embedding of `timed_mutex_lock` (lines 61-84 of the C file): acquiring
the lock returns normally with the iteration index; running out the
wall-clock budget prints the diagnostic and exits with failure status. -/
def timed_mutex_lock (timeout start : Nat) (trylock : Nat → Bool) (clock : Nat → Nat)
    (fuel : Nat) : Option (CResult Nat) :=
  (timedLockLoop timeout start trylock clock fuel 0).map fun r =>
    if r.2 then CResult.ok r.1 else CResult.fatalExit lockTimeoutMsg

/-- One observable action of `cleanup` (lines 240-255 of the C file). -/
inductive CAct where
  | printResuming : Nat → CAct
  | setTracer : Nat → CAct
  | sendCont : Nat → CAct
  deriving DecidableEq

/-- Embedding of `cleanup`: given the current value of the `tracer`
variable, returns its new value together with the actions performed, in
order: the `printf`, then (only when `tracer` is nonzero) clearing the
variable and sending `SIGCONT` to the saved value. -/
def cleanup (tracer : Nat) : Nat × List CAct :=
  if tracer ≠ 0 then
    (0, [CAct.printResuming tracer, CAct.setTracer 0, CAct.sendCont tracer])
  else
    (tracer, [CAct.printResuming tracer])

/-- Number of SIGCONT signals in a list of cleanup actions. -/
def contCount (acts : List CAct) : Nat :=
  (acts.filter fun a =>
    match a with
    | CAct.sendCont _ => true
    | _ => false).length

/-- Checks that in the action list every SIGCONT send is preceded by a
clearing of the tracer variable to 0; `cleared` tells whether such a
clearing has already happened. -/
def clearedBeforeCont (cleared : Bool) : List CAct → Bool
  | [] => true
  | CAct.sendCont _ :: rest => cleared && clearedBeforeCont cleared rest
  | CAct.setTracer 0 :: rest => clearedBeforeCont true rest
  | _ :: rest => clearedBeforeCont cleared rest

/-- Worker-thread state string the orchestrator waits for (line 306). -/
def stoppedState : String := "T (stopped)"

/-- Worker-thread state string the orchestrator waits for (lines 344-346). -/
def tracingStopState : String := "T (tracing stop)"

/-- Diagnostic printed by `state_wait` on timeout (line 232). -/
def stateTimeoutDiag : String := "Timed out waiting for state"

/-- Diagnostic for a zero TracerPid in non-standalone mode (line 285). -/
def mustBeRunByGdbDiag : String := "The testcase must be run by GDB!"

/-- Diagnostic for a tracer that is not the parent (line 290). -/
def parentNotTracerDiag : String := "The testcase parent must be our GDB tracer!"

/-- Observable synchronisation events of `main`, in program order. -/
inductive Event where
  | lockMutex : String → Event
  | unlockMutex : String → Event
  | createThread : Nat → Event
  | readTracerPid : Event
  | registerAtexit : Event
  | sendSignal : String → Nat → Event
  | stateWaitCall : Nat → String → Event
  | joinThread : Nat → Event
  deriving DecidableEq

/-- Environment a run of `main` executes in: the command line (including
the program name), the `TracerPid:` value its status file reports, the
parent pid, the thread ids the two workers publish (0 meaning publication
failed), and whether each `state_wait` poll reaches the wanted state
within its budget. -/
structure MainEnv where
  argv : List String
  tracerPid : Nat
  ppid : Nat
  tid1 : Nat
  tid2 : Nat
  stoppedWaitOk : Bool
  tracingStop1Ok : Bool
  tracingStop2Ok : Bool

/-- Command-line handling of `main` (lines 263-266 of the C file):
`argc == 2 && strcmp (argv[1], "-s") == 0` selects standalone mode,
otherwise `assert (argc == 1)`; `none` is the assertion failure. -/
def mainArgs (argv : List String) : Option Bool :=
  if argv.length = 2 ∧ argv.get? 1 = some "-s" then some true
  else if argv.length = 1 then some false
  else none

/-- Remainder of `main` after tracer discovery (lines 298-368 of the C
file), with `tracer` the value of the tracer variable (0 in standalone
mode) and `tr` the events performed so far. -/
def mainBody (e : MainEnv) (tracer : Nat) (tr : List Event) : List Event × CResult Nat :=
  let tr := tr ++ [Event.registerAtexit]
  if tracer ≠ 0 ∧ ¬ e.stoppedWaitOk then
    (tr ++ [Event.sendSignal "SIGSTOP" tracer, Event.stateWaitCall tracer stoppedState],
     CResult.fatalExit stateTimeoutDiag)
  else
    let tr := tr ++ (if tracer ≠ 0 then
      [Event.sendSignal "SIGSTOP" tracer, Event.stateWaitCall tracer stoppedState] else [])
    let tr := tr ++ [Event.lockMutex "thread1_tid_mutex", Event.lockMutex "thread2_tid_mutex",
                     Event.unlockMutex "gdbstop_mutex"]
    if e.tid1 = 0 then (tr, CResult.assertFail)
    else if e.tid2 = 0 then (tr, CResult.assertFail)
    else if tracer ≠ 0 ∧ ¬ e.tracingStop1Ok then
      (tr ++ [Event.stateWaitCall e.tid1 tracingStopState], CResult.fatalExit stateTimeoutDiag)
    else if tracer ≠ 0 ∧ ¬ e.tracingStop2Ok then
      (tr ++ [Event.stateWaitCall e.tid1 tracingStopState,
              Event.stateWaitCall e.tid2 tracingStopState],
       CResult.fatalExit stateTimeoutDiag)
    else
      let tr := tr ++ (if tracer ≠ 0 then
        [Event.stateWaitCall e.tid1 tracingStopState,
         Event.stateWaitCall e.tid2 tracingStopState] else [])
      let tr := tr ++ (if tracer ≠ 0 then [Event.sendSignal "SIGCONT" tracer] else [])
      let tr := tr ++ [Event.unlockMutex "terminate_mutex",
                       Event.joinThread 1, Event.joinThread 2]
      (tr, CResult.ok 0)

/-- Embedding of `main` (lines 257-369 of the C file) as the sequence of
synchronisation events it performs together with its result. -/
def mainRun (e : MainEnv) : List Event × CResult Nat :=
  match mainArgs e.argv with
  | none => ([], CResult.assertFail)
  | some standalone =>
    let tr0 := [Event.lockMutex "gdbstop_mutex", Event.lockMutex "terminate_mutex",
                Event.createThread 1, Event.createThread 2]
    if standalone then mainBody e 0 tr0
    else
      let tr1 := tr0 ++ [Event.readTracerPid]
      if e.tracerPid = 0 then (tr1, CResult.fatalExit mustBeRunByGdbDiag)
      else if e.tracerPid ≠ e.ppid then (tr1, CResult.fatalExit parentNotTracerDiag)
      else mainBody e e.tracerPid tr1

/-- Lines of a status file, flattened to the character stream `proc_string`
reads: every line is terminated by a newline. -/
def flattenLines (lines : List (List Char)) : List Char :=
  (lines.map fun l => l ++ ['\n']).flatten

/-! Theorems. -/

/-- C2: the resumption action `cleanup` is idempotent: for every starting
value of the recorded `tracer` variable, calling `cleanup` twice sends at
most one SIGCONT in total, after the first call the variable equals the
cleared sentinel 0, and in each call the variable is cleared before the
signal is sent. -/
theorem cleanup_idempotent (t : Nat) :
    contCount ((cleanup t).2 ++ (cleanup (cleanup t).1).2) ≤ 1 ∧
    (cleanup t).1 = 0 ∧
    clearedBeforeCont false (cleanup t).2 = true ∧
    clearedBeforeCont false (cleanup (cleanup t).1).2 = true := by
  rcases Nat.eq_zero_or_pos t with h | h
  · subst h
    decide
  · have ht : t ≠ 0 := by omega
    simp [cleanup, ht, contCount, clearedBeforeCont]

/-- C3: on a status file containing the line `TracerPid:\t4321`,
`proc_ulong` with label `TracerPid:\t` returns 4321; on a file with no
line beginning with that label it exits fatally with the no-line
diagnostic instead of returning a default value. -/
theorem proc_ulong_roundtrip :
    proc_ulong (FileInput.content ("TracerPid:\t4321\n".toList) false) ("TracerPid:\t".toList)
      = CResult.ok 4321 ∧
    proc_ulong (FileInput.content ("Name:\tfoo\n".toList) false) ("TracerPid:\t".toList)
      = CResult.fatalExit noLineDiag := by
  decide

/-- C9: on a status file whose matching line is exactly the label with an
empty remainder, `proc_string` returns the empty string, the base-10 parse
of the empty string yields 0 with an empty end pointer, and `proc_ulong`
returns 0 successfully instead of failing. -/
theorem proc_ulong_empty_remainder :
    proc_string (FileInput.content ("TracerPid:\t\n".toList) false) ("TracerPid:\t".toList)
      = CResult.ok [] ∧
    strtol10 [] = (0, []) ∧
    proc_ulong (FileInput.content ("TracerPid:\t\n".toList) false) ("TracerPid:\t".toList)
      = CResult.ok 0 := by
  decide

/-- C8: the command line accepts exactly the optional flag `-s` as sole
argument (standalone mode); no arguments selects traced mode; any other
argument combination fails the `assert (argc == 1)` and aborts, which
`mainRun` reports as an assertion failure. -/
theorem main_arg_handling (argv0 : String) (rest : List String) (e : MainEnv) :
    mainArgs (argv0 :: rest)
      = (if rest = ["-s"] then some true else if rest = [] then some false else none) ∧
    (mainArgs e.argv = none → mainRun e = ([], CResult.assertFail)) := by
  constructor
  · match rest with
    | [] => simp [mainArgs]
    | [a] =>
      by_cases ha : a = "-s" <;> simp [mainArgs, ha]
    | a :: b :: tl => simp [mainArgs]
  · intro h
    simp [mainRun, h]

/-- Witness for C8 at a concrete rejected command line. -/
theorem main_arg_handling_witness :
    mainRun ⟨["prog", "-x"], 0, 0, 0, 0, true, true, true⟩ = ([], CResult.assertFail) :=
  (main_arg_handling "prog" ["-x"] ⟨["prog", "-x"], 0, 0, 0, 0, true, true, true⟩).2
    (by decide)

/-- C7: in non-standalone mode `main` reads the tracer identifier from its
own status metadata and exits fatally when it is 0 (no tracer attached) or
differs from the parent process identifier. -/
theorem tracer_validation (e : MainEnv) (h : mainArgs e.argv = some false) :
    (e.tracerPid = 0 →
        (mainRun e).2 = CResult.fatalExit mustBeRunByGdbDiag ∧
        Event.readTracerPid ∈ (mainRun e).1) ∧
    (e.tracerPid ≠ 0 → e.tracerPid ≠ e.ppid →
        (mainRun e).2 = CResult.fatalExit parentNotTracerDiag ∧
        Event.readTracerPid ∈ (mainRun e).1) := by
  constructor
  · intro h0
    simp [mainRun, h, h0]
  · intro h0 hne
    simp [mainRun, h, h0, hne]

/-- Witness for C7 at concrete environments: a zero TracerPid and a
TracerPid different from the parent pid. -/
theorem tracer_validation_witness :
    (mainRun ⟨["prog"], 0, 5, 1, 2, true, true, true⟩).2
        = CResult.fatalExit mustBeRunByGdbDiag ∧
    (mainRun ⟨["prog"], 7, 5, 1, 2, true, true, true⟩).2
        = CResult.fatalExit parentNotTracerDiag := by
  refine ⟨?_, ?_⟩
  · exact ((tracer_validation ⟨["prog"], 0, 5, 1, 2, true, true, true⟩ (by decide)).1 rfl).1
  · exact ((tracer_validation ⟨["prog"], 7, 5, 1, 2, true, true, true⟩ (by decide)).2
      (by decide) (by decide)).1

/-- Under permanent contention the polling loop gives up exactly at the
first iteration whose clock reading shows the budget elapsed. -/
theorem timedLockLoop_times_out (timeout start N : Nat) (trylock : Nat → Bool)
    (clock : Nat → Nat)
    (hbusy : ∀ i, trylock i = false)
    (hstart : ∀ i, start ≤ clock i)
    (hN : start + timeout ≤ clock N)
    (hleast : ∀ j, j < N → clock j < start + timeout) :
    ∀ fuel i, i ≤ N → N - i < fuel →
      timedLockLoop timeout start trylock clock fuel i = some (N, false) := by
  intro fuel
  induction fuel with
  | zero =>
    intro i _ hf
    omega
  | succ fuel ih =>
    intro i hi hf
    rw [timedLockLoop, hbusy i]
    simp only [Bool.false_eq_true, if_false]
    rcases Nat.lt_or_ge i N with h | h
    · have hci : clock i < start + timeout := hleast i h
      have hlt : clock i - start < timeout := by
        have := hstart i
        omega
      rw [if_pos hlt]
      exact ih (i + 1) (by omega) (by omega)
    · have hiN : i = N := le_antisymm hi h
      subst hiN
      have hge : ¬ clock i - start < timeout := by
        have := hstart i
        omega
      rw [if_neg hge]

/-- C6: under permanent contention (`trylock` never succeeds),
`timed_mutex_lock` fails exactly at the caller's wall-clock timeout
boundary — at the first poll whose monotone-clock reading shows at least
`TIMEOUT` elapsed seconds, not earlier and not later — and on that timeout
it prints the diagnostic and exits the process with failure status; the
budget is 10 seconds for the main thread (`gettid () == getpid ()`) and 15
seconds for worker threads. -/
theorem timed_mutex_lock_contention (tid pid start N fuel : Nat)
    (trylock : Nat → Bool) (clock : Nat → Nat)
    (hbusy : ∀ i, trylock i = false)
    (hstart : ∀ i, start ≤ clock i)
    (hN : start + TIMEOUT tid pid ≤ clock N)
    (hleast : ∀ j, j < N → clock j < start + TIMEOUT tid pid)
    (hfuel : N < fuel) :
    timedLockLoop (TIMEOUT tid pid) start trylock clock fuel 0 = some (N, false) ∧
    timed_mutex_lock (TIMEOUT tid pid) start trylock clock fuel
      = some (CResult.fatalExit lockTimeoutMsg) ∧
    (tid = pid → TIMEOUT tid pid = 10) ∧
    (tid ≠ pid → TIMEOUT tid pid = 15) := by
  have h1 := timedLockLoop_times_out (TIMEOUT tid pid) start N trylock clock hbusy hstart hN
    hleast fuel 0 (Nat.zero_le N) (by omega)
  refine ⟨h1, ?_, ?_, ?_⟩
  · rw [timed_mutex_lock, h1]
    rfl
  · intro h
    simp [TIMEOUT, h]
  · intro h
    simp [TIMEOUT, h]

/-- Witness for C6: with the identity clock and a never-succeeding trylock,
the main-thread call times out fatally at iteration 10 and the worker
budget is 15. -/
theorem timed_mutex_lock_contention_witness :
    timed_mutex_lock (TIMEOUT 1 1) 0 (fun _ => false) (fun i => i) 12
      = some (CResult.fatalExit lockTimeoutMsg) ∧
    TIMEOUT 1 1 = 10 ∧ TIMEOUT 1 2 = 15 := by
  have h := timed_mutex_lock_contention 1 1 0 10 12 (fun _ => false) (fun i => i)
    (fun _ => rfl) (fun i => Nat.zero_le i) (by decide)
    (by
      intro j hj
      simpa [TIMEOUT] using hj)
    (by omega)
  have h2 := timed_mutex_lock_contention 1 2 0 15 20 (fun _ => false) (fun i => i)
    (fun _ => rfl) (fun i => Nat.zero_le i) (by decide)
    (by
      intro j hj
      simpa [TIMEOUT] using hj)
    (by omega)
  exact ⟨h.2.1, h.2.2.1 rfl, h2.2.2.2 (by decide)⟩

/-- The value `strtol` returns is the clamping of the exact value of the
digit sequence. -/
theorem strtol10_fst (s : List Char) : (strtol10 s).1 = clampLong (strtol10_exact s) := by
  by_cases h : ((signSplit (s.dropWhile isSpaceC)).2.takeWhile Char.isDigit) = []
  · simp only [strtol10, strtol10_exact, h]
    cases hp : (signSplit (s.dropWhile isSpaceC)).1 <;>
      simp [digitsToNat, clampLong, LONG_MAX, LONG_MIN]
  · simp [strtol10, h]

/-- Clamping preserves negativity. -/
theorem clampLong_neg_iff (e : Int) : clampLong e < 0 ↔ e < 0 := by
  simp only [clampLong, LONG_MAX, LONG_MIN]
  split_ifs <;> omega

/-- Clamping reaches `LONG_MAX` exactly for exact values at least `LONG_MAX`. -/
theorem clampLong_ge_max_iff (e : Int) : LONG_MAX ≤ clampLong e ↔ LONG_MAX ≤ e := by
  simp only [clampLong, LONG_MAX, LONG_MIN]
  split_ifs <;> omega

/-- C4 (amended): on a matched line, `proc_ulong` parses the remainder in
base 10 and fails fatally exactly when the parsed value is negative, the
parse overflows, the exact parsed value is `LONG_MAX` or larger (the
`retval >= LONG_MAX` sentinel check also rejects a perfectly representable
`LONG_MAX`), or non-numeric characters trail the number; otherwise it
returns the parsed value. -/
theorem proc_ulong_parse_checks (file : FileInput) (label s : List Char)
    (h : proc_string file label = CResult.ok s) :
    (proc_ulong file label = CResult.fatalExit ulongDiag ↔
      (strtol10_exact s < 0 ∨ LONG_MAX ≤ strtol10_exact s ∨ (strtol10 s).2 ≠ [])) ∧
    (¬(strtol10_exact s < 0 ∨ LONG_MAX ≤ strtol10_exact s ∨ (strtol10 s).2 ≠ []) →
      proc_ulong file label = CResult.ok (strtol10_exact s)) := by
  have hv : (strtol10 s).1 = clampLong (strtol10_exact s) := strtol10_fst s
  have hcond : ((strtol10 s).1 < 0 ∨ LONG_MAX ≤ (strtol10 s).1 ∨ (strtol10 s).2 ≠ [])
      ↔ (strtol10_exact s < 0 ∨ LONG_MAX ≤ strtol10_exact s ∨ (strtol10 s).2 ≠ []) := by
    rw [hv, clampLong_neg_iff, clampLong_ge_max_iff]
  constructor
  · simp only [proc_ulong, h]
    by_cases hc : (strtol10 s).1 < 0 ∨ LONG_MAX ≤ (strtol10 s).1 ∨ (strtol10 s).2 ≠ []
    · simp only [if_pos hc]
      simp [hcond.mp hc]
    · simp only [if_neg hc]
      rw [← hcond]
      simp [hc]
  · intro hn
    simp only [proc_ulong, h]
    rw [if_neg (fun hc => hn (hcond.mp hc))]
    have he : (strtol10 s).1 = strtol10_exact s := by
      push_neg at hn
      rw [hv]
      simp only [clampLong, LONG_MAX, LONG_MIN] at hn ⊢
      split_ifs <;> omega
    rw [he]

/-- Counterexample to C4 as stated: on a matched line whose remainder is
exactly `LONG_MAX` (9223372036854775807), the parsed value is
non-negative, the parse does not overflow (the exact value is within the
long range), and no characters trail the number, yet `proc_ulong` exits
fatally instead of returning the parsed value. -/
theorem proc_ulong_longmax_cex :
    proc_string (FileInput.content ("TracerPid:\t9223372036854775807\n".toList) false)
        ("TracerPid:\t".toList) = CResult.ok ("9223372036854775807".toList) ∧
    0 ≤ strtol10_exact ("9223372036854775807".toList) ∧
    strtol10_exact ("9223372036854775807".toList) ≤ LONG_MAX ∧
    (strtol10 ("9223372036854775807".toList)).2 = [] ∧
    proc_ulong (FileInput.content ("TracerPid:\t9223372036854775807\n".toList) false)
        ("TracerPid:\t".toList) = CResult.fatalExit ulongDiag := by
  decide

/-- Witness for the amended C4 at a concrete in-range value. -/
theorem proc_ulong_parse_checks_witness :
    proc_ulong (FileInput.content ("TracerPid:\t4321\n".toList) false) ("TracerPid:\t".toList)
      = CResult.ok (strtol10_exact ("4321".toList)) :=
  (proc_ulong_parse_checks (FileInput.content ("TracerPid:\t4321\n".toList) false)
    ("TracerPid:\t".toList) ("4321".toList) (by decide)).2 (by decide)

/-- Truncating at the terminating newline recovers the line body. -/
theorem takeWhile_newline (l : List Char) (hnl : '\n' ∉ l) :
    (l ++ ['\n']).takeWhile (fun c => c != '\n') = l := by
  induction l with
  | nil => simp
  | cons a l ih =>
    simp only [List.mem_cons, not_or] at hnl
    have ha : (a != '\n') = true := by
      simp only [bne_iff_ne, ne_eq]
      exact fun e => hnl.1 e.symm
    simp [List.takeWhile_cons, ha, ih hnl.2]

/-- One step of the scan loop on a well-formed (newline-terminated,
buffer-fitting) line: return the remainder on a prefix match, otherwise
continue with the rest of the file. -/
theorem procLines_line (label l : List Char) (rest : List (List Char)) (readErr : Bool)
    (hnl : '\n' ∉ l) :
    procLines label readErr ((l ++ ['\n']) :: rest)
      = if l.take label.length = label then CResult.ok (l.drop label.length)
        else procLines label readErr rest := by
  have hmem : '\n' ∈ l ++ ['\n'] := by simp
  simp [procLines, hmem, takeWhile_newline l hnl]

/-- A chunk of the `fgets` stream holding a short newline-terminated line
is exactly that line. -/
theorem splitChunks_line (cap : Nat) (l : List Char) :
    ∀ (t acc : List Char) (room : Nat), '\n' ∉ l → l.length < room →
    splitChunks cap (l ++ '\n' :: t) acc room
      = (acc ++ l ++ ['\n']) :: splitChunks cap t [] cap := by
  induction l with
  | nil =>
    intro t acc room _ _
    simp [splitChunks]
  | cons a l ih =>
    intro t acc room hnl hroom
    simp only [List.mem_cons, not_or] at hnl
    have ha : ¬ a = '\n' := fun e => hnl.1 e.symm
    have h2 : ¬ room ≤ 1 := by
      simp only [List.length_cons] at hroom
      omega
    have hr : l.length < room - 1 := by
      simp only [List.length_cons] at hroom
      omega
    simp only [List.cons_append, splitChunks, if_neg ha, if_neg h2, List.append_eq]
    rw [ih t (acc ++ [a]) (room - 1) hnl.2 hr]
    simp

/-- The `fgets` chunks of a well-formed status file are exactly its
newline-terminated lines. -/
theorem splitChunks_flatten (cap : Nat) (lines : List (List Char))
    (hwf : ∀ l ∈ lines, '\n' ∉ l ∧ l.length < cap) :
    splitChunks cap (flattenLines lines) [] cap
      = lines.map (fun l => l ++ ['\n']) := by
  induction lines with
  | nil => simp [flattenLines, splitChunks]
  | cons l rest ih =>
    have h := hwf l (List.mem_cons_self l rest)
    have hflat : flattenLines (l :: rest) = l ++ '\n' :: flattenLines rest := by
      simp [flattenLines]
    rw [hflat, splitChunks_line cap l (flattenLines rest) [] cap h.1 h.2,
        ih (fun x hx => hwf x (List.mem_cons_of_mem l hx))]
    simp

/-- The scan loop over the lines of a well-formed file returns the
remainder of the first matching line, and otherwise takes the read-error
or no-matching-line failure exit. -/
theorem procLines_flatten (label : List Char) (lines : List (List Char)) (readErr : Bool)
    (hwf : ∀ l ∈ lines, '\n' ∉ l) :
    procLines label readErr (lines.map (fun l => l ++ ['\n']))
      = (match lines.find? (fun x => x.take label.length == label) with
         | some l => CResult.ok (l.drop label.length)
         | none => if readErr then CResult.fatalExit fgetsDiag
                   else CResult.fatalExit noLineDiag) := by
  induction lines with
  | nil => simp [procLines, List.find?]
  | cons l rest ih =>
    rw [List.map_cons, procLines_line label l _ readErr (hwf l (List.mem_cons_self l rest))]
    by_cases h : l.take label.length = label
    · rw [if_pos h, List.find?_cons_of_pos _ (by simpa using h)]
    · rw [if_neg h, List.find?_cons_of_neg _ (by simpa using h),
        ih (fun x hx => hwf x (List.mem_cons_of_mem l hx))]

/-- C5: for every label and well-formed status file (each line newline
terminated and shorter than the `LINE_MAX` buffer), `proc_string` returns
the remainder, after the label, of the first line beginning with that
exact label, with the trailing newline stripped; it exits fatally exactly
when the file cannot be opened, a read error occurs, or no line matches
before end of file. -/
theorem proc_string_contract (lines : List (List Char)) (label : List Char) (readErr : Bool)
    (hwf : ∀ l ∈ lines, '\n' ∉ l ∧ l.length + 1 < LINE_MAX) :
    proc_string FileInput.noOpen label = CResult.fatalExit fopenDiag ∧
    (∀ l, lines.find? (fun x => x.take label.length == label) = some l →
        proc_string (FileInput.content (flattenLines lines) readErr) label
          = CResult.ok (l.drop label.length)) ∧
    (lines.find? (fun x => x.take label.length == label) = none →
        proc_string (FileInput.content (flattenLines lines) readErr) label
          = (if readErr then CResult.fatalExit fgetsDiag
             else CResult.fatalExit noLineDiag)) := by
  have hwf2 : ∀ l ∈ lines, '\n' ∉ l ∧ l.length < LINE_MAX - 1 := by
    intro l hl
    obtain ⟨ha, hb⟩ := hwf l hl
    refine ⟨ha, ?_⟩
    simp only [LINE_MAX] at hb ⊢
    omega
  have key : proc_string (FileInput.content (flattenLines lines) readErr) label
      = (match lines.find? (fun x => x.take label.length == label) with
         | some l => CResult.ok (l.drop label.length)
         | none => if readErr then CResult.fatalExit fgetsDiag
                   else CResult.fatalExit noLineDiag) := by
    show procLines label readErr
        (splitChunks (LINE_MAX - 1) (flattenLines lines) [] (LINE_MAX - 1)) = _
    rw [splitChunks_flatten (LINE_MAX - 1) lines hwf2,
        procLines_flatten label lines readErr (fun l hl => (hwf2 l hl).1)]
  refine ⟨rfl, ?_, ?_⟩
  · intro l hfind
    rw [key, hfind]
  · intro hfind
    rw [key, hfind]

/-- Witness for C5 at a concrete two-line status file. -/
theorem proc_string_contract_witness :
    proc_string
        (FileInput.content (flattenLines ["Name:\tx".toList, "TracerPid:\t7".toList]) false)
        ("TracerPid:\t".toList)
      = CResult.ok ("7".toList) := by
  have h := proc_string_contract ["Name:\tx".toList, "TracerPid:\t7".toList]
    ("TracerPid:\t".toList) false (by decide)
  simpa using h.2.1 ("TracerPid:\t7".toList) (by decide)

/-- A chunk taken from a stream whose next buffer-load of characters
contains no newline is itself newline-free. -/
theorem splitChunks_no_newline (cap : Nat) (s : List Char) :
    ∀ (acc : List Char) (room : Nat), 1 ≤ room → (s ≠ [] ∨ acc ≠ []) →
    '\n' ∉ s.take room → '\n' ∉ acc →
    ∃ c rest, splitChunks cap s acc room = c :: rest ∧ '\n' ∉ c := by
  induction s with
  | nil =>
    intro acc room _ hne _ hacc
    have hacc2 : acc ≠ [] := by
      rcases hne with h | h
      · exact absurd rfl h
      · exact h
    refine ⟨acc, [], ?_, hacc⟩
    simp [splitChunks, hacc2]
  | cons a s ih =>
    intro acc room hroom hne htake hacc
    have hr : room = (room - 1) + 1 := by omega
    rw [hr, List.take_succ_cons] at htake
    simp only [List.mem_cons, not_or] at htake
    have ha : ¬ a = '\n' := fun e => htake.1 e.symm
    by_cases h1 : room ≤ 1
    · refine ⟨acc ++ [a], splitChunks cap s [] cap, ?_, ?_⟩
      · simp only [splitChunks, if_neg ha, if_pos h1]
      · simp only [List.mem_append, List.mem_cons, List.not_mem_nil, or_false, not_or]
        exact ⟨hacc, fun e => htake.1 e⟩
    · have step : splitChunks cap (a :: s) acc room
          = splitChunks cap s (acc ++ [a]) (room - 1) := by
        simp only [splitChunks, if_neg ha, if_neg h1]
      rw [step]
      refine ih (acc ++ [a]) (room - 1) (by omega) (Or.inr (by simp)) htake.2 ?_
      simp only [List.mem_append, List.mem_cons, List.not_mem_nil, or_false, not_or]
      exact ⟨hacc, fun e => htake.1 e⟩

/-- C10: `proc_string` assumes every line it reads is newline terminated
and fits in the buffer: if, before any line matching the label, the stream
reaches a point with a nonempty remainder whose next `LINE_MAX - 1`
characters contain no newline (an unterminated final line, or a line of at
least `LINE_MAX - 1` characters), the assertion that the read buffer
contains a newline character fails and the process aborts instead of
taking the diagnostic-and-exit failure path. -/
theorem proc_string_unterminated_aborts (lastPart label : List Char) (readErr : Bool)
    (hne : lastPart ≠ [])
    (hbad : '\n' ∉ lastPart.take (LINE_MAX - 1)) :
    ∀ lines : List (List Char),
      (∀ l ∈ lines, '\n' ∉ l ∧ l.length + 1 < LINE_MAX) →
      (∀ l ∈ lines, l.take label.length ≠ label) →
      proc_string (FileInput.content (flattenLines lines ++ lastPart) readErr) label
        = CResult.assertFail := by
  intro lines
  induction lines with
  | nil =>
    intro _ _
    show procLines label readErr
        (splitChunks (LINE_MAX - 1) (flattenLines [] ++ lastPart) [] (LINE_MAX - 1)) = _
    have hfl : flattenLines [] ++ lastPart = lastPart := by simp [flattenLines]
    rw [hfl]
    obtain ⟨c, rest, heq, hc⟩ := splitChunks_no_newline (LINE_MAX - 1) lastPart []
      (LINE_MAX - 1) (by simp [LINE_MAX]) (Or.inl hne) hbad (by simp)
    rw [heq]
    simp [procLines, hc]
  | cons l rest ih =>
    intro hwf hnomatch
    have h := hwf l (List.mem_cons_self l rest)
    have hlen : l.length < LINE_MAX - 1 := by
      have hb := h.2
      simp only [LINE_MAX] at hb ⊢
      omega
    show procLines label readErr
        (splitChunks (LINE_MAX - 1) (flattenLines (l :: rest) ++ lastPart) []
          (LINE_MAX - 1)) = _
    have hflat : flattenLines (l :: rest) ++ lastPart
        = l ++ '\n' :: (flattenLines rest ++ lastPart) := by
      simp [flattenLines]
    rw [hflat, splitChunks_line (LINE_MAX - 1) l (flattenLines rest ++ lastPart) []
      (LINE_MAX - 1) h.1 hlen]
    have hstep := procLines_line label l
      (splitChunks (LINE_MAX - 1) (flattenLines rest ++ lastPart) [] (LINE_MAX - 1))
      readErr h.1
    simp only [List.nil_append]
    rw [hstep, if_neg (hnomatch l (List.mem_cons_self l rest))]
    exact ih (fun x hx => hwf x (List.mem_cons_of_mem l hx))
      (fun x hx => hnomatch x (List.mem_cons_of_mem l hx))

/-- Witness for C10 at a concrete file whose only line lacks a newline. -/
theorem proc_string_unterminated_aborts_witness :
    proc_string (FileInput.content (flattenLines [] ++ "NoNewline".toList) false)
        ("State:\t".toList)
      = CResult.assertFail :=
  proc_string_unterminated_aborts ("NoNewline".toList) ("State:\t".toList) false
    (by decide) (by decide) [] (by decide) (by decide)

/-- C1: in every non-standalone run (hence with a verified tracer) that
executes the Terminate Gate release, the `state_wait` calls polling both
workers for the tracing-stop state occur strictly before the
`terminate_mutex` unlock in the event sequence of `main`. -/
theorem terminate_release_after_tracing_stop (e : MainEnv)
    (hargs : mainArgs e.argv = some false)
    (hdone : Event.unlockMutex "terminate_mutex" ∈ (mainRun e).1) :
    ∃ pre post,
      (mainRun e).1 = pre ++ Event.unlockMutex "terminate_mutex" :: post ∧
      Event.unlockMutex "terminate_mutex" ∉ pre ∧
      Event.stateWaitCall e.tid1 tracingStopState ∈ pre ∧
      Event.stateWaitCall e.tid2 tracingStopState ∈ pre := by
  by_cases h0 : e.tracerPid = 0
  · simp [mainRun, hargs, h0] at hdone
  by_cases hp : e.tracerPid = e.ppid
  case neg =>
    simp [mainRun, hargs, h0, hp] at hdone
  rw [hp] at h0
  cases hsw : e.stoppedWaitOk with
  | false =>
    simp [mainRun, hargs, h0, hp, mainBody, hsw] at hdone
  | true =>
  by_cases ht1 : e.tid1 = 0
  · simp [mainRun, hargs, h0, hp, mainBody, hsw, ht1] at hdone
  by_cases ht2 : e.tid2 = 0
  · simp [mainRun, hargs, h0, hp, mainBody, hsw, ht1, ht2] at hdone
  cases hts1 : e.tracingStop1Ok with
  | false =>
    simp [mainRun, hargs, h0, hp, mainBody, hsw, ht1, ht2, hts1] at hdone
  | true =>
  cases hts2 : e.tracingStop2Ok with
  | false =>
    simp [mainRun, hargs, h0, hp, mainBody, hsw, ht1, ht2, hts1, hts2] at hdone
  | true =>
  refine ⟨[Event.lockMutex "gdbstop_mutex", Event.lockMutex "terminate_mutex",
      Event.createThread 1, Event.createThread 2, Event.readTracerPid,
      Event.registerAtexit, Event.sendSignal "SIGSTOP" e.tracerPid,
      Event.stateWaitCall e.tracerPid stoppedState,
      Event.lockMutex "thread1_tid_mutex", Event.lockMutex "thread2_tid_mutex",
      Event.unlockMutex "gdbstop_mutex",
      Event.stateWaitCall e.tid1 tracingStopState,
      Event.stateWaitCall e.tid2 tracingStopState,
      Event.sendSignal "SIGCONT" e.tracerPid],
    [Event.joinThread 1, Event.joinThread 2], ?_, ?_, ?_, ?_⟩
  · simp [mainRun, hargs, h0, hp, mainBody, hsw, ht1, ht2, hts1, hts2]
  · simp
  · simp
  · simp

/-- Witness for C1 at a concrete completed traced run. -/
theorem terminate_release_after_tracing_stop_witness :
    ∃ pre post,
      (mainRun ⟨["prog"], 5, 5, 11, 12, true, true, true⟩).1
        = pre ++ Event.unlockMutex "terminate_mutex" :: post ∧
      Event.unlockMutex "terminate_mutex" ∉ pre ∧
      Event.stateWaitCall 11 tracingStopState ∈ pre ∧
      Event.stateWaitCall 12 tracingStopState ∈ pre :=
  terminate_release_after_tracing_stop ⟨["prog"], 5, 5, 11, 12, true, true, true⟩
    (by decide) (by decide)

end WatchthreadsReorder
